import Mathlib

/-!
Verification development for the Directory Service microblock intake core
(src/libDirectoryService/MicroBlockProcessing.cpp of the Zilliqa repository).

The C++ functions are shallowly embedded as pure Lean functions over an
explicit state record.  External collaborators (crypto primitives, the
persistent block store, the account store, the mediator, timestamp
verification) are modelled as fields of an environment record, following the
specification's stance that they are out of scope and assumed correct.
Machine integers (uint32_t / uint64_t shard ids, epoch numbers, hashes) are
modelled as Nat; none of the embedded code paths perform arithmetic that can
overflow (the only arithmetic is `dsBlockNum + 1`, epoch modulus, and the
quorum formula).
-/

namespace ZilliqaDS

/-- Microblock header, with the fields read by MicroBlockProcessing.cpp
(version, dsBlockNum, epochNum, shardId, minerPubKey, committeeHash,
stateDeltaHash).  Hashes and public keys are opaque handles, modelled as
Nat. -/
structure MicroBlockHeader where
  version : Nat
  dsBlockNum : Nat
  epochNum : Nat
  shardId : Nat
  minerPubKey : Nat
  committeeHash : Nat
  stateDeltaHash : Nat
  deriving DecidableEq, Inhabited

/-- Microblock: header, the block hash field, the timestamp, the two
co-signature rounds (B1/B2 signer bitmaps, CS1/CS2 aggregated signatures,
opaque handles modelled as Nat). -/
structure MicroBlock where
  header : MicroBlockHeader
  blockHash : Nat
  timestamp : Nat
  b1 : List Bool
  b2 : List Bool
  cs1 : Nat
  cs2 : Nat
  deriving DecidableEq, Inhabited

/-- The zero / default-constructed StateHash (`StateHash()` in the source). -/
def zeroStateHash : Nat := 0

/-- Environment of external collaborators and configuration constants
consumed by the core.  Function-valued fields model the external calls the
source makes; Bool-valued fields model external success/failure outcomes.
The spec (section 1) treats these as out-of-scope collaborators that are
assumed available; the claims quantify over every environment. -/
structure Env where
  /-- LOOKUP_NODE_MODE configuration constant. -/
  lookupNodeMode : Bool
  /-- MICROBLOCK_VERSION configuration constant (exact required version). -/
  MICROBLOCK_VERSION : Nat
  /-- MicroBlockHeader::GetMyHash, the self-hash over the header (external
  crypto). -/
  myHash : MicroBlockHeader → Nat
  /-- SHA2-256 over a byte sequence (libCrypto). -/
  sha256 : List Nat → Nat
  /-- Mediator::CheckWhetherBlockIsLatest, applied to
  (dsBlockNum + 1, epochNum). -/
  blockIsLatest : Nat → Nat → Bool
  /-- VerifyTimestamp(timestamp, window) from libUtils. -/
  verifyTimestamp : Nat → Nat → Bool
  /-- Mediator::GetIsVacuousEpoch for a given epoch; the no-argument C++
  overload is modelled as application to the current epoch. -/
  isVacuousEpoch : Nat → Bool
  /-- CheckState(PROCESS_MICROBLOCKSUBMISSION). -/
  stateIsProcessMBSubmission : Bool
  /-- Messenger::GetShardHash over a committee; None models failure. -/
  getShardHash : List Nat → Option Nat
  /-- MultiSig::AggregatePubKeys; None models the nullptr result. -/
  aggregatePubKeys : List Nat → Option Nat
  /-- MicroBlockHeader::Serialize; None models failure. -/
  serializeHeader : MicroBlockHeader → Option (List Nat)
  /-- Signature::Serialize for CS1. -/
  serializeSig : Nat → List Nat
  /-- BitVector::SetBitVector wire encoding of B1. -/
  setBitVector : List Bool → List Nat
  /-- MultiSig::MultiSigVerify(message, signature, aggregated key). -/
  multiSigVerify : List Nat → Nat → Nat → Bool
  /-- MicroBlock::Serialize (whole-block body used for persistence). -/
  serializeMicroBlock : MicroBlock → List Nat
  /-- Modelled from the spec: SaveCoinbase(B1, B2, shardId, epoch) → bool;
  the coinbase ledger implementation is not part of the given sources, so
  only its success outcome is modelled, keyed by its exact arguments. -/
  saveCoinbaseOk : List Bool → List Bool → Nat → Nat → Bool
  /-- BlockStorage::PutMicroBlock(blockHash, epoch, shardId, body) → bool. -/
  putMicroBlockOk : Nat → Nat → Nat → List Nat → Bool
  /-- AccountStore::DeserializeDeltaTemp(delta, 0) success outcome. -/
  deserializeDeltaTempOk : List Nat → Bool
  /-- AccountStore::SerializeDelta success outcome. -/
  serializeDeltaOk : Bool
  /-- AccountStore::GetSerializedDelta, as a function of the deltas applied
  so far to the temporary overlay. -/
  getSerializedDelta : List (List Nat) → List Nat
  /-- Modelled from the spec: CheckMicroBlocks, the external gap auditor
  re-evaluated after the repair loop; only its outcome is modelled because
  its implementation is not part of the given sources. -/
  checkMicroBlocksOk : Bool
  /-- NUM_FINAL_BLOCK_PER_POW configuration constant. -/
  NUM_FINAL_BLOCK_PER_POW : Nat
  /-- EXTRA_TX_DISTRIBUTE_TIME_IN_MS configuration constant. -/
  EXTRA_TX_DISTRIBUTE_TIME_IN_MS : Nat
  /-- CONSENSUS_OBJECT_TIMEOUT configuration constant. -/
  CONSENSUS_OBJECT_TIMEOUT : Nat
  /-- MICROBLOCK_TIMEOUT configuration constant. -/
  MICROBLOCK_TIMEOUT : Nat

/-- Association-list read with the std::map convention that an absent
per-epoch bucket reads as empty (the spec: per-epoch tables are created
lazily on first write). -/
def assocGet {α : Type} : List (Nat × List α) → Nat → List α
  | [], _ => []
  | p :: rest, k => if p.1 = k then p.2 else assocGet rest k

/-- Association-list write: replace the bucket for a key, or add it. -/
def assocUpd {α : Type} : List (Nat × List α) → Nat → List α → List (Nat × List α)
  | [], k, v => [(k, v)]
  | p :: rest, k, v => if p.1 = k then (k, v) :: rest else p :: assocUpd rest k v

/-- DirectoryService state (the mutable members of the class touched by
MicroBlockProcessing.cpp, the relevant mediator fields, and ledgers that
record the externally visible effects: coinbase entries and block-storage
writes). -/
structure DSState where
  /-- m_mediator.m_currentEpochNum. -/
  currentEpochNum : Nat
  /-- m_microBlocks: epoch → accepted microblocks. -/
  microBlocks : List (Nat × List MicroBlock)
  /-- m_microBlockStateDeltas: epoch → (blockHash, delta) entries. -/
  microBlockStateDeltas : List (Nat × List (Nat × List Nat))
  /-- m_MBSubmissionBuffer: key-sorted epoch → buffered (mb, delta) list. -/
  mbSubmissionBuffer : List (Nat × List (MicroBlock × List Nat))
  /-- m_missingMicroBlocks: epoch → missing block hashes. -/
  missingMicroBlocks : List (Nat × List Nat)
  /-- m_publicKeyToshardIdMap as an association list. -/
  publicKeyToShardId : List (Nat × Nat)
  /-- m_shards: each shard is its ordered list of member public keys. -/
  shards : List (List Nat)
  /-- m_mediator.m_DSCommittee member public keys, in order. -/
  dsCommittee : List Nat
  /-- m_mediator.m_node->m_myshardId. -/
  myShardId : Nat
  /-- m_stopRecvNewMBSubmission. -/
  stopRecvNewMBSubmission : Bool
  /-- m_stateDeltaFromShards aggregate buffer. -/
  stateDeltaFromShards : List Nat
  /-- Deltas applied so far to the account store's temporary overlay. -/
  accountTempDeltas : List (List Nat)
  /-- Coinbase ledger entries (B1, B2, shardId, epoch) recorded by
  SaveCoinbase. -/
  coinbase : List (List Bool × List Bool × Nat × Nat)
  /-- Block-storage writes (blockHash, epoch, shardId, body) recorded by
  PutMicroBlock. -/
  storedMicroBlocks : List (Nat × Nat × Nat × List Nat)
  deriving DecidableEq

/-- Modelled from the spec: ConsensusCommon::NumForConsensus, the quorum
function quorum(n) = ceil(2n/3) + 1; the consensus module is not part of
the given sources, and the spec fixes this exact formula. -/
def NumForConsensus (n : Nat) : Nat := (2 * n + 2) / 3 + 1

/-- Signer extraction of VerifyMicroBlockCoSignature: walk the committee in
order and keep the public key at each index whose B2 bit is set.  Invoked
only after the committee size has been checked equal to |B2|. -/
def extractSigners (committee : List Nat) (b2 : List Bool) : List Nat :=
  ((committee.zip b2).filter (fun kb => kb.2)).map (fun kb => kb.1)

/-- Tail of VerifyMicroBlockCoSignature after signer extraction: quorum
count check, key aggregation, message construction
serialize(header) ++ serialize(CS1) ++ bitvector(B1), and multisignature
verification of CS2. -/
def verifyAggregate (env : Env) (mb : MicroBlock) (keys : List Nat) : Bool :=
  if keys.length ≠ NumForConsensus mb.b2.length then false
  else
    match env.aggregatePubKeys keys with
    | none => false
    | some aggregatedKey =>
      match env.serializeHeader mb.header with
      | none => false
      | some headerBytes =>
        env.multiSigVerify
          (headerBytes ++ env.serializeSig mb.cs1 ++ env.setBitVector mb.b1)
          mb.cs2 aggregatedKey

/-- DirectoryService::VerifyMicroBlockCoSignature(microBlock, shardId):
select the DS committee when shardId == |shards|, shards[shardId] when
shardId < |shards|, otherwise fail; then check the committee size against
|B2|, extract the signers, and verify. -/
def VerifyMicroBlockCoSignature (env : Env) (st : DSState) (mb : MicroBlock)
    (shardId : Nat) : Bool :=
  if shardId = st.shards.length then
    if st.dsCommittee.length ≠ mb.b2.length then false
    else verifyAggregate env mb (extractSigners st.dsCommittee mb.b2)
  else if shardId < st.shards.length then
    if (st.shards.getD shardId []).length ≠ mb.b2.length then false
    else verifyAggregate env mb (extractSigners (st.shards.getD shardId []) mb.b2)
  else false

/-- Map-emplace into a per-epoch (blockHash → delta) bucket: a no-op when
the key is already present, matching std::map::emplace. -/
def deltaEmplace (bucket : List (Nat × List Nat)) (k : Nat) (v : List Nat) :
    List (Nat × List Nat) :=
  if bucket.any (fun p => p.1 == k) then bucket else (k, v) :: bucket

/-- DirectoryService::ProcessStateDelta(stateDelta, microBlockStateDeltaHash,
microBlockHash).  The hex-string conversion of the hash at the top of the
source is logging-only and always succeeds for a fixed-width hash, so it is
not modelled as a failure point.  The second zero-hash guard after the hash
comparison is dead in the source and is kept for fidelity. -/
def ProcessStateDelta (env : Env) (st : DSState) (stateDelta : List Nat)
    (microBlockStateDeltaHash : Nat) (microBlockHash : Nat) : Bool × DSState :=
  if env.lookupNodeMode then (true, st)
  else if microBlockStateDeltaHash = zeroStateHash then (true, st)
  else if stateDelta.isEmpty then
    if microBlockStateDeltaHash ≠ zeroStateHash then (false, st) else (true, st)
  else if env.sha256 stateDelta ≠ microBlockStateDeltaHash then (false, st)
  else if microBlockStateDeltaHash = zeroStateHash then (false, st)
  else if ¬ env.deserializeDeltaTempOk stateDelta then (false, st)
  else
    let st1 : DSState :=
      { st with accountTempDeltas := st.accountTempDeltas ++ [stateDelta] }
    if ¬ env.serializeDeltaOk then (false, st1)
    else
      let st2 : DSState :=
        { st1 with stateDeltaFromShards := env.getSerializedDelta st1.accountTempDeltas }
      (true,
       { st2 with
         microBlockStateDeltas :=
           assocUpd st2.microBlockStateDeltas st.currentEpochNum
             (deltaEmplace (assocGet st2.microBlockStateDeltas st.currentEpochNum)
               microBlockHash stateDelta) })

/-- Duplicate-shard scan of ProcessMicroblockSubmissionFromShardCore:
find_if over the epoch's accepted microblocks by shard id. -/
def hasShardId (l : List MicroBlock) (shardId : Nat) : Bool :=
  l.any (fun mb => mb.header.shardId == shardId)

/-- Extra timestamp allowance: EXTRA_TX_DISTRIBUTE_TIME_IN_MS on the first
tx-epoch after a PoW epoch (currentEpoch divisible by
NUM_FINAL_BLOCK_PER_POW), else 0. -/
def extraTime (env : Env) (st : DSState) : Nat :=
  if st.currentEpochNum % env.NUM_FINAL_BLOCK_PER_POW ≠ 0 then 0
  else env.EXTRA_TX_DISTRIBUTE_TIME_IN_MS

/-- std::map::find over m_publicKeyToshardIdMap. -/
def pkLookup : List (Nat × Nat) → Nat → Option Nat
  | [], _ => none
  | p :: rest, pk => if p.1 = pk then some p.2 else pkLookup rest pk

/-- Set-emplace of a microblock into a per-epoch bucket: a no-op when the
identical element is already present, matching std::set::emplace. -/
def setInsert (l : List MicroBlock) (mb : MicroBlock) : List MicroBlock :=
  if mb ∈ l then l else mb :: l

/-- SaveCoinbase effect: both submission paths record (B1, B2, shardId,
currentEpochNum) for a non-DS shard (the call is made only when the shard
id differs from |shards|, and the epoch argument is always the node's
current epoch). -/
def coinbaseRecord (st : DSState) (mb : MicroBlock) : DSState :=
  if mb.header.shardId ≠ st.shards.length then
    { st with coinbase :=
        (mb.b1, mb.b2, mb.header.shardId, st.currentEpochNum) :: st.coinbase }
  else st

/-- PutMicroBlock effect on success: the write (blockHash, epochNum,
shardId, serialized body) is recorded in block storage. -/
def persistRecord (env : Env) (st : DSState) (mb : MicroBlock) : DSState :=
  { st with storedMicroBlocks :=
      (mb.blockHash, mb.header.epochNum, mb.header.shardId,
        env.serializeMicroBlock mb) :: st.storedMicroBlocks }

/-- Acceptance tail of the shard-submission path: insert into
microBlocks[currentEpoch]; when the bucket size reaches |shards|, set
m_stopRecvNewMBSubmission (the notification and the detached
final-block-consensus task have no further effect on this state). -/
def acceptMicroBlock (st : DSState) (mb : MicroBlock) : DSState :=
  let bucket := setInsert (assocGet st.microBlocks st.currentEpochNum) mb
  let st1 : DSState :=
    { st with microBlocks := assocUpd st.microBlocks st.currentEpochNum bucket }
  if bucket.length = st.shards.length then
    { st1 with stopRecvNewMBSubmission := true }
  else st1

/-- DirectoryService::ProcessMicroblockSubmissionFromShardCore(microBlock,
stateDelta): the full validation chain of the shard submission path, in
source order: lookup-mode no-op, duplicate-shard gate, self-hash binding,
version, block-latest freshness, timestamp, miner-key authority, committee
hash binding, co-signature, drain gate, coinbase, persistence, state delta,
acceptance and completion check.  The source's two adjacent early returns
for the miner-key lookup (key absent; key mapped to a different shard) are
merged into the single guard pkLookup ≠ some shardId, and likewise the two
adjacent early returns for the committee hash (GetShardHash failure; hash
mismatch) into getShardHash ≠ some committeeHash: in each pair both
returns yield false with no state change and differ only in the log
message. -/
def ProcessMicroblockSubmissionFromShardCore (env : Env) (st : DSState)
    (mb : MicroBlock) (stateDelta : List Nat) : Bool × DSState :=
  if env.lookupNodeMode then (true, st)
  else if hasShardId (assocGet st.microBlocks st.currentEpochNum) mb.header.shardId then
    (false, st)
  else if env.myHash mb.header ≠ mb.blockHash then (false, st)
  else if mb.header.version ≠ env.MICROBLOCK_VERSION then (false, st)
  else if ¬ env.blockIsLatest (mb.header.dsBlockNum + 1) mb.header.epochNum then
    (false, st)
  else if ¬ env.verifyTimestamp mb.timestamp
      (env.CONSENSUS_OBJECT_TIMEOUT + env.MICROBLOCK_TIMEOUT + extraTime env st) then
    (false, st)
  else if pkLookup st.publicKeyToShardId mb.header.minerPubKey ≠
      some mb.header.shardId then
    (false, st)
  else if env.getShardHash (st.shards.getD mb.header.shardId []) ≠
      some mb.header.committeeHash then
    (false, st)
  else if ¬ VerifyMicroBlockCoSignature env st mb mb.header.shardId then
    (false, st)
  else if st.stopRecvNewMBSubmission then (false, st)
  else if mb.header.shardId ≠ st.shards.length ∧
      ¬ env.saveCoinbaseOk mb.b1 mb.b2 mb.header.shardId st.currentEpochNum then
    (false, st)
  else
    let st2 : DSState := coinbaseRecord st mb
    if ¬ env.putMicroBlockOk mb.blockHash mb.header.epochNum mb.header.shardId
        (env.serializeMicroBlock mb) then
      (false, st2)
    else
      let st3 : DSState := persistRecord env st2 mb
      if ¬ env.isVacuousEpoch st.currentEpochNum then
        let r := ProcessStateDelta env st3 stateDelta
          mb.header.stateDeltaHash mb.blockHash
        if r.1 then (true, acceptMicroBlock r.2 mb) else (false, r.2)
      else (true, acceptMicroBlock st3 mb)

/-- Ordered insertion into the key-sorted submission buffer, matching
std::map operator[] followed by vector emplace_back. -/
def bufferAdd (k : Nat) (x : MicroBlock × List Nat) :
    List (Nat × List (MicroBlock × List Nat)) →
    List (Nat × List (MicroBlock × List Nat))
  | [] => [(k, [x])]
  | p :: rest =>
    if k < p.1 then (k, [x]) :: p :: rest
    else if k = p.1 then (p.1, p.2 ++ [x]) :: rest
    else p :: bufferAdd k x rest

/-- Iteration of CommitMBSubmissionMsgBuffer over the key-sorted buffer:
erase buckets below the current epoch, process the current epoch's bucket
through the shard-submission core and stop (the bucket is erased), keep
later buckets and continue iterating over them. -/
def commitMBLoop (env : Env) (st : DSState) :
    List (Nat × List (MicroBlock × List Nat)) →
    DSState × List (Nat × List (MicroBlock × List Nat))
  | [] => (st, [])
  | p :: rest =>
    if p.1 < st.currentEpochNum then commitMBLoop env st rest
    else if p.1 = st.currentEpochNum then
      (p.2.foldl
        (fun s entry => (ProcessMicroblockSubmissionFromShardCore env s entry.1 entry.2).2)
        st,
       rest)
    else
      let r := commitMBLoop env st rest
      (r.1, p :: r.2)

/-- DirectoryService::CommitMBSubmissionMsgBuffer. -/
def CommitMBSubmissionMsgBuffer (env : Env) (st : DSState) : DSState :=
  let r := commitMBLoop env st st.mbSubmissionBuffer
  { r.1 with mbSubmissionBuffer := r.2 }

/-- DirectoryService::ProcessMicroblockSubmissionFromShard(epochNumber,
microBlocks, stateDeltas): reject empty inputs; buffer for a future epoch;
for the current epoch, process directly when in
PROCESS_MICROBLOCKSUBMISSION state and buffer otherwise; reject stale
epochs.  The DM_TEST fault-injection blocks of the source are
compile-time-disabled toggles outside the spec's scope and are not
modelled. -/
def ProcessMicroblockSubmissionFromShard (env : Env) (st : DSState)
    (epochNumber : Nat) (microBlocks : List MicroBlock)
    (stateDeltas : List (List Nat)) : Bool × DSState :=
  if microBlocks.isEmpty then (false, st)
  else if stateDeltas.isEmpty then (false, st)
  else
    let mb := microBlocks.getD 0 default
    let sd := stateDeltas.getD 0 []
    if st.currentEpochNum < epochNumber then
      (true, { st with mbSubmissionBuffer := bufferAdd epochNumber (mb, sd) st.mbSubmissionBuffer })
    else if st.currentEpochNum = epochNumber then
      if env.stateIsProcessMBSubmission then
        ProcessMicroblockSubmissionFromShardCore env st mb sd
      else
        (true, { st with mbSubmissionBuffer := bufferAdd epochNumber (mb, sd) st.mbSubmissionBuffer })
    else (false, st)

/-- Authority check of the missing-microblock loop: for the DS sentinel
shard id, the miner key must appear in the DS committee; otherwise it must
map to the claimed shard id in m_publicKeyToshardIdMap. -/
def missingAuthorityOk (st : DSState) (mb : MicroBlock) : Bool :=
  if mb.header.shardId = st.shards.length then
    st.dsCommittee.contains mb.header.minerPubKey
  else
    match pkLookup st.publicKeyToShardId mb.header.minerPubKey with
    | none => false
    | some mappedShardId => mappedShardId == mb.header.shardId

/-- Persistence and insertion tail of the missing-microblock loop: a failed
block-storage write aborts (none); otherwise the write is recorded and the
microblock inserted into microBlocks[epochNumber]. -/
def missingPersistInsert (env : Env) (epochNumber : Nat) (st : DSState)
    (mb : MicroBlock) : Option DSState :=
  let body := env.serializeMicroBlock mb
  if ¬ env.putMicroBlockOk mb.blockHash mb.header.epochNum mb.header.shardId body then
    none
  else
    some { st with
      storedMicroBlocks :=
        (mb.blockHash, mb.header.epochNum, mb.header.shardId, body) :: st.storedMicroBlocks,
      microBlocks :=
        assocUpd st.microBlocks epochNumber
          (setInsert (assocGet st.microBlocks epochNumber) mb) }

/-- Per-item loop of ProcessMissingMicroblockSubmission, in source order:
block-latest freshness (failure aborts the batch), authority (failure skips
the item), co-signature unless the item's shard id is the node's own
(failure skips), missing-list membership (else skip), already-present by
block hash (skip), coinbase for non-DS shards (failure skips), state delta
unless the epoch is vacuous (failure skips), persistence (failure aborts
the batch), insertion. -/
def ProcessMissingLoop (env : Env) (epochNumber : Nat) (st : DSState) :
    List (MicroBlock × List Nat) → Bool × DSState
  | [] => (true, st)
  | (mb, sd) :: rest =>
    if ¬ env.blockIsLatest (mb.header.dsBlockNum + 1) mb.header.epochNum then
      (false, st)
    else if ¬ missingAuthorityOk st mb then
      ProcessMissingLoop env epochNumber st rest
    else if mb.header.shardId ≠ st.myShardId ∧
        ¬ VerifyMicroBlockCoSignature env st mb mb.header.shardId then
      ProcessMissingLoop env epochNumber st rest
    else if ¬ (assocGet st.missingMicroBlocks epochNumber).contains mb.blockHash then
      ProcessMissingLoop env epochNumber st rest
    else if (assocGet st.microBlocks epochNumber).any
        (fun my => my.blockHash == mb.blockHash) then
      ProcessMissingLoop env epochNumber st rest
    else if mb.header.shardId ≠ st.shards.length ∧
        ¬ env.saveCoinbaseOk mb.b1 mb.b2 mb.header.shardId st.currentEpochNum then
      ProcessMissingLoop env epochNumber st rest
    else
      let st1 : DSState := coinbaseRecord st mb
      if ¬ env.isVacuousEpoch epochNumber then
        let r := ProcessStateDelta env st1 sd mb.header.stateDeltaHash mb.blockHash
        if ¬ r.1 then ProcessMissingLoop env epochNumber r.2 rest
        else
          match missingPersistInsert env epochNumber r.2 mb with
          | none => (false, r.2)
          | some st3 => ProcessMissingLoop env epochNumber st3 rest
      else
        match missingPersistInsert env epochNumber st1 mb with
        | none => (false, st1)
        | some st3 => ProcessMissingLoop env epochNumber st3 rest

/-- DirectoryService::ProcessMissingMicroblockSubmission(epochNumber,
microBlocks, stateDeltas): an epoch mismatch with the current epoch is
logged but tolerated; a microBlocks/stateDeltas size mismatch aborts; the
per-item loop runs; afterwards the external gap auditor decides the return
value. -/
def ProcessMissingMicroblockSubmission (env : Env) (st : DSState)
    (epochNumber : Nat) (microBlocks : List MicroBlock)
    (stateDeltas : List (List Nat)) : Bool × DSState :=
  if microBlocks.length ≠ stateDeltas.length then (false, st)
  else
    let r := ProcessMissingLoop env epochNumber st (microBlocks.zip stateDeltas)
    if ¬ r.1 then (false, r.2)
    else if ¬ env.checkMicroBlocksOk then (false, r.2)
    else (true, r.2)

/-!
Concrete environments, states and microblocks used to evaluate the
operations on the spec's scenarios.
-/

/-- Fully permissive environment: every external collaborator succeeds, the
required microblock version is 1, the header self-hash is the constant 11,
and sha256 is the constant 5. -/
def envA : Env where
  lookupNodeMode := false
  MICROBLOCK_VERSION := 1
  myHash := fun _ => 11
  sha256 := fun _ => 5
  blockIsLatest := fun _ _ => true
  verifyTimestamp := fun _ _ => true
  isVacuousEpoch := fun _ => true
  stateIsProcessMBSubmission := true
  getShardHash := fun _ => some 3
  aggregatePubKeys := fun _ => some 0
  serializeHeader := fun _ => some []
  serializeSig := fun _ => []
  setBitVector := fun _ => []
  multiSigVerify := fun _ _ _ => true
  serializeMicroBlock := fun _ => []
  saveCoinbaseOk := fun _ _ _ _ => true
  putMicroBlockOk := fun _ _ _ _ => true
  deserializeDeltaTempOk := fun _ => true
  serializeDeltaOk := true
  getSerializedDelta := fun _ => []
  checkMicroBlocksOk := true
  NUM_FINAL_BLOCK_PER_POW := 100
  EXTRA_TX_DISTRIBUTE_TIME_IN_MS := 0
  CONSENSUS_OBJECT_TIMEOUT := 10
  MICROBLOCK_TIMEOUT := 10

/-- Environment in which the block-latest freshness check fails. -/
def envStale : Env := { envA with blockIsLatest := fun _ _ => false }

/-- Environment in which epochs are not vacuous and sha256 is the constant
99, so a non-zero declared state-delta hash of 5 mismatches. -/
def envDeltaFail : Env :=
  { envA with isVacuousEpoch := fun _ => false, sha256 := fun _ => 99 }

/-- State at epoch 5 with no shards, a one-member DS committee, and block
hashes 7 and 8 registered as missing for epoch 5. -/
def stRepair : DSState where
  currentEpochNum := 5
  microBlocks := []
  microBlockStateDeltas := []
  mbSubmissionBuffer := []
  missingMicroBlocks := [(5, [7, 8])]
  publicKeyToShardId := []
  shards := []
  dsCommittee := [1]
  myShardId := 0
  stopRecvNewMBSubmission := false
  stateDeltaFromShards := []
  accountTempDeltas := []
  coinbase := []
  storedMicroBlocks := []

/-- stRepair after the drain gate has been set for the current epoch. -/
def stRepairStopped : DSState := { stRepair with stopRecvNewMBSubmission := true }

/-- A microblock carrying a version (999) different from the required one
and a blockHash (7) different from its header self-hash (11 under envA),
authored by DS member 1 under the DS-sentinel shard id 0 = |shards|. -/
def mbBad : MicroBlock where
  header :=
    { version := 999, dsBlockNum := 0, epochNum := 5, shardId := 0,
      minerPubKey := 1, committeeHash := 0, stateDeltaHash := 0 }
  blockHash := 7
  timestamp := 0
  b1 := []
  b2 := []
  cs1 := 0
  cs2 := 0

/-- A second repair microblock with the same shard id as mbBad but block
hash 8. -/
def mbBad8 : MicroBlock := { mbBad with blockHash := 8 }

/-- State at epoch 10 with one three-member shard whose committee hash is 3
(the value envA.getShardHash returns) and miner key 21 mapped to shard 0. -/
def stShard : DSState where
  currentEpochNum := 10
  microBlocks := []
  microBlockStateDeltas := []
  mbSubmissionBuffer := []
  missingMicroBlocks := []
  publicKeyToShardId := [(21, 0)]
  shards := [[21, 22, 23]]
  dsCommittee := [1, 2]
  myShardId := 0
  stopRecvNewMBSubmission := false
  stateDeltaFromShards := []
  accountTempDeltas := []
  coinbase := []
  storedMicroBlocks := []

/-- A valid shard-0 microblock for stShard under envA: version 1, blockHash
11 = header self-hash, committee hash 3, all three committee members
signing both rounds. -/
def mbGood : MicroBlock where
  header :=
    { version := 1, dsBlockNum := 3, epochNum := 10, shardId := 0,
      minerPubKey := 21, committeeHash := 3, stateDeltaHash := 0 }
  blockHash := 11
  timestamp := 0
  b1 := [true, true, true]
  b2 := [true, true, true]
  cs1 := 0
  cs2 := 0

/-- mbGood with a declared non-zero state-delta hash of 5. -/
def mbGoodDelta : MicroBlock :=
  { mbGood with header := { mbGood.header with stateDeltaHash := 5 } }

/-- State with a single ten-member shard, for the quorum boundary
scenario. -/
def stQuorum : DSState :=
  { stShard with shards := [[31, 32, 33, 34, 35, 36, 37, 38, 39, 40]],
                 publicKeyToShardId := [(31, 0)] }

/-- mbGood with a ten-bit B2 bitmap carrying exactly 7 set bits. -/
def mbQuorum7 : MicroBlock :=
  { mbGood with
    b2 := [true, true, true, true, true, true, true, false, false, false] }

/-- stShard at epoch 5, with block hash 11 registered as missing for epoch
7 (used for the cross-epoch repair scenario). -/
def stMissingLate : DSState :=
  { stShard with currentEpochNum := 5, missingMicroBlocks := [(7, [11])] }

/-- stRepair with a stale buffer bucket (key 3), a current-epoch bucket
(key 5) holding one submission, and a future bucket (key 7). -/
def stBuffered : DSState :=
  { stRepair with mbSubmissionBuffer := [(3, []), (5, [(mbBad, [])]), (7, [])] }

/-- The buffered entries of a given epoch key (empty when the key has no
bucket), used to describe the drain operation. -/
def bufferBucket (buf : List (Nat × List (MicroBlock × List Nat))) (k : Nat) :
    List (MicroBlock × List Nat) :=
  match buf.find? (fun p => p.1 == k) with
  | some p => p.2
  | none => []

/-- Sequential processing of buffered submissions through the
shard-submission core, used to describe the drain operation. -/
def coreFold (env : Env) (entries : List (MicroBlock × List Nat))
    (st : DSState) : DSState :=
  entries.foldl
    (fun s entry => (ProcessMicroblockSubmissionFromShardCore env s entry.1 entry.2).2)
    st

/-!
Helper lemmas shared by the claim theorems.
-/

theorem assocGet_upd_self {α : Type} (m : List (Nat × List α)) (k : Nat)
    (v : List α) : assocGet (assocUpd m k v) k = v := by
  induction m with
  | nil => simp [assocGet, assocUpd]
  | cons p rest ih =>
    by_cases h : p.1 = k <;> simp [assocGet, assocUpd, h, ih]

theorem extractSigners_cons (k : Nat) (ks : List Nat) (x : Bool)
    (xs : List Bool) :
    extractSigners (k :: ks) (x :: xs) =
      if x then k :: extractSigners ks xs else extractSigners ks xs := by
  cases x <;> simp [extractSigners]

theorem extractSigners_length (c : List Nat) (b : List Bool)
    (h : c.length = b.length) :
    (extractSigners c b).length = b.count true := by
  induction c generalizing b with
  | nil =>
    cases b with
    | nil => rfl
    | cons x xs => simp at h
  | cons k ks ih =>
    cases b with
    | nil => simp at h
    | cons x xs =>
      simp only [List.length_cons, Nat.add_right_cancel_iff] at h
      cases x <;> simp [extractSigners_cons, List.count_cons, ih xs h]

theorem verifyAggregate_quorum_fail (env : Env) (mb : MicroBlock)
    (keys : List Nat) (h : keys.length ≠ NumForConsensus mb.b2.length) :
    verifyAggregate env mb keys = false := by
  simp [verifyAggregate, h]

/-- Branch reduction: at the DS sentinel shard id the verifier checks the
DS committee. -/
theorem verify_ds_branch (env : Env) (st : DSState) (mb : MicroBlock)
    (shardId : Nat) (h1 : shardId = st.shards.length) :
    VerifyMicroBlockCoSignature env st mb shardId =
      (if st.dsCommittee.length ≠ mb.b2.length then false
       else verifyAggregate env mb (extractSigners st.dsCommittee mb.b2)) := by
  unfold VerifyMicroBlockCoSignature
  rw [if_pos h1]

/-- Branch reduction: at a proper shard id the verifier checks that
shard's committee. -/
theorem verify_shard_branch (env : Env) (st : DSState) (mb : MicroBlock)
    (shardId : Nat) (h1 : shardId ≠ st.shards.length)
    (h3 : shardId < st.shards.length) :
    VerifyMicroBlockCoSignature env st mb shardId =
      (if (st.shards.getD shardId []).length ≠ mb.b2.length then false
       else verifyAggregate env mb
         (extractSigners (st.shards.getD shardId []) mb.b2)) := by
  unfold VerifyMicroBlockCoSignature
  rw [if_neg h1, if_pos h3]

/-- The quorum gate of the co-signature verifier: whatever the committee,
a B2 bitmap whose number of set bits differs from NumForConsensus(|B2|) is
rejected. -/
theorem verify_quorum_fail (env : Env) (st : DSState) (mb : MicroBlock)
    (shardId : Nat) (h : mb.b2.count true ≠ NumForConsensus mb.b2.length) :
    VerifyMicroBlockCoSignature env st mb shardId = false := by
  by_cases h1 : shardId = st.shards.length
  · rw [verify_ds_branch env st mb shardId h1]
    by_cases h2 : st.dsCommittee.length = mb.b2.length
    · rw [if_neg (not_not_intro h2)]
      exact verifyAggregate_quorum_fail env mb _
        (by rw [extractSigners_length _ _ h2]; exact h)
    · rw [if_pos h2]
  · by_cases h3 : shardId < st.shards.length
    · rw [verify_shard_branch env st mb shardId h1 h3]
      by_cases h4 : (st.shards.getD shardId []).length = mb.b2.length
      · rw [if_neg (not_not_intro h4)]
        exact verifyAggregate_quorum_fail env mb _
          (by rw [extractSigners_length _ _ h4]; exact h)
      · rw [if_pos h4]
    · unfold VerifyMicroBlockCoSignature
      rw [if_neg h1, if_neg h3]

theorem psd_microBlocks (env : Env) (s : DSState) (d : List Nat) (h b : Nat) :
    (ProcessStateDelta env s d h b).2.microBlocks = s.microBlocks := by
  simp only [ProcessStateDelta]
  split_ifs <;> rfl

theorem psd_currentEpochNum (env : Env) (s : DSState) (d : List Nat)
    (h b : Nat) :
    (ProcessStateDelta env s d h b).2.currentEpochNum = s.currentEpochNum := by
  simp only [ProcessStateDelta]
  split_ifs <;> rfl

theorem psd_coinbase (env : Env) (s : DSState) (d : List Nat) (h b : Nat) :
    (ProcessStateDelta env s d h b).2.coinbase = s.coinbase := by
  simp only [ProcessStateDelta]
  split_ifs <;> rfl

theorem psd_storedMicroBlocks (env : Env) (s : DSState) (d : List Nat)
    (h b : Nat) :
    (ProcessStateDelta env s d h b).2.storedMicroBlocks = s.storedMicroBlocks := by
  simp only [ProcessStateDelta]
  split_ifs <;> rfl

theorem psd_shards (env : Env) (s : DSState) (d : List Nat) (h b : Nat) :
    (ProcessStateDelta env s d h b).2.shards = s.shards := by
  simp only [ProcessStateDelta]
  split_ifs <;> rfl

/-- The success outcome of ProcessStateDelta depends only on the
environment and the arguments, never on the state it is applied to. -/
theorem psd_fst_congr (env : Env) (s1 s2 : DSState) (d : List Nat)
    (h b : Nat) :
    (ProcessStateDelta env s1 d h b).1 = (ProcessStateDelta env s2 d h b).1 := by
  simp only [ProcessStateDelta]
  split_ifs <;> rfl

theorem cbr_microBlocks (st : DSState) (mb : MicroBlock) :
    (coinbaseRecord st mb).microBlocks = st.microBlocks := by
  unfold coinbaseRecord
  split <;> rfl

theorem cbr_currentEpochNum (st : DSState) (mb : MicroBlock) :
    (coinbaseRecord st mb).currentEpochNum = st.currentEpochNum := by
  unfold coinbaseRecord
  split <;> rfl

theorem cbr_storedMicroBlocks (st : DSState) (mb : MicroBlock) :
    (coinbaseRecord st mb).storedMicroBlocks = st.storedMicroBlocks := by
  unfold coinbaseRecord
  split <;> rfl

theorem cbr_shards (st : DSState) (mb : MicroBlock) :
    (coinbaseRecord st mb).shards = st.shards := by
  unfold coinbaseRecord
  split <;> rfl

theorem cbr_coinbase_nonds (st : DSState) (mb : MicroBlock)
    (h : mb.header.shardId ≠ st.shards.length) :
    (coinbaseRecord st mb).coinbase =
      (mb.b1, mb.b2, mb.header.shardId, st.currentEpochNum) :: st.coinbase := by
  unfold coinbaseRecord
  rw [if_pos h]

theorem spr_microBlocks (env : Env) (st : DSState) (mb : MicroBlock) :
    (persistRecord env st mb).microBlocks = st.microBlocks := rfl

theorem spr_currentEpochNum (env : Env) (st : DSState) (mb : MicroBlock) :
    (persistRecord env st mb).currentEpochNum = st.currentEpochNum := rfl

theorem spr_coinbase (env : Env) (st : DSState) (mb : MicroBlock) :
    (persistRecord env st mb).coinbase = st.coinbase := rfl

theorem spr_storedMicroBlocks (env : Env) (st : DSState) (mb : MicroBlock) :
    (persistRecord env st mb).storedMicroBlocks =
      (mb.blockHash, mb.header.epochNum, mb.header.shardId,
        env.serializeMicroBlock mb) :: st.storedMicroBlocks := rfl

theorem acceptMicroBlock_microBlocks (s : DSState) (mb : MicroBlock) :
    (acceptMicroBlock s mb).microBlocks =
      assocUpd s.microBlocks s.currentEpochNum
        (setInsert (assocGet s.microBlocks s.currentEpochNum) mb) := by
  simp only [acceptMicroBlock]
  split <;> rfl

theorem mem_setInsert_self (l : List MicroBlock) (mb : MicroBlock) :
    mb ∈ setInsert l mb := by
  by_cases h : mb ∈ l <;> simp [setInsert, h]

/-- Case analysis of the shard-submission core's effect on the accepted
microblock table: either it is left unchanged, or (only on full acceptance,
and only when the duplicate-shard scan came up empty) the submitted
microblock is inserted into the current epoch's bucket. -/
theorem core_cases (env : Env) (st : DSState) (mb : MicroBlock)
    (sd : List Nat) :
    (ProcessMicroblockSubmissionFromShardCore env st mb sd).2.microBlocks =
      st.microBlocks
    ∨ (hasShardId (assocGet st.microBlocks st.currentEpochNum) mb.header.shardId
        = false
       ∧ (ProcessMicroblockSubmissionFromShardCore env st mb sd).1 = true
       ∧ (ProcessMicroblockSubmissionFromShardCore env st mb sd).2.microBlocks =
           assocUpd st.microBlocks st.currentEpochNum
             (setInsert (assocGet st.microBlocks st.currentEpochNum) mb)) := by
  simp only [ProcessMicroblockSubmissionFromShardCore]
  by_cases c1 : env.lookupNodeMode = true
  case pos => rw [if_pos c1]; exact Or.inl rfl
  rw [if_neg c1]
  by_cases c2 : hasShardId (assocGet st.microBlocks st.currentEpochNum)
    mb.header.shardId = true
  case pos => rw [if_pos c2]; exact Or.inl rfl
  rw [if_neg c2]
  by_cases c3 : env.myHash mb.header = mb.blockHash
  case neg => rw [if_pos c3]; exact Or.inl rfl
  rw [if_neg (not_not_intro c3)]
  by_cases c4 : mb.header.version = env.MICROBLOCK_VERSION
  case neg => rw [if_pos c4]; exact Or.inl rfl
  rw [if_neg (not_not_intro c4)]
  by_cases c5 : env.blockIsLatest (mb.header.dsBlockNum + 1)
    mb.header.epochNum = true
  case neg => rw [if_pos c5]; exact Or.inl rfl
  rw [if_neg (not_not_intro c5)]
  by_cases c6 : env.verifyTimestamp mb.timestamp
    (env.CONSENSUS_OBJECT_TIMEOUT + env.MICROBLOCK_TIMEOUT + extraTime env st) = true
  case neg => rw [if_pos c6]; exact Or.inl rfl
  rw [if_neg (not_not_intro c6)]
  by_cases c7 : pkLookup st.publicKeyToShardId mb.header.minerPubKey =
    some mb.header.shardId
  case neg => rw [if_pos c7]; exact Or.inl rfl
  rw [if_neg (not_not_intro c7)]
  by_cases c8 : env.getShardHash (st.shards.getD mb.header.shardId []) =
    some mb.header.committeeHash
  case neg => rw [if_pos c8]; exact Or.inl rfl
  rw [if_neg (not_not_intro c8)]
  by_cases c9 : VerifyMicroBlockCoSignature env st mb mb.header.shardId = true
  case neg => rw [if_pos c9]; exact Or.inl rfl
  rw [if_neg (not_not_intro c9)]
  by_cases c10 : st.stopRecvNewMBSubmission = true
  case pos => rw [if_pos c10]; exact Or.inl rfl
  rw [if_neg c10]
  by_cases c11 : mb.header.shardId ≠ st.shards.length ∧
    ¬ env.saveCoinbaseOk mb.b1 mb.b2 mb.header.shardId st.currentEpochNum = true
  case pos => rw [if_pos c11]; exact Or.inl rfl
  rw [if_neg c11]
  by_cases c12 : env.putMicroBlockOk mb.blockHash mb.header.epochNum
    mb.header.shardId (env.serializeMicroBlock mb) = true
  case neg => rw [if_pos c12]; exact Or.inl (cbr_microBlocks st mb)
  rw [if_neg (not_not_intro c12)]
  by_cases c13 : env.isVacuousEpoch st.currentEpochNum = true
  case pos =>
    rw [if_neg (not_not_intro c13)]
    refine Or.inr ⟨by simpa using c2, rfl, ?_⟩
    rw [acceptMicroBlock_microBlocks, spr_microBlocks, spr_currentEpochNum,
      cbr_microBlocks, cbr_currentEpochNum]
  rw [if_pos c13]
  by_cases c14 : (ProcessStateDelta env (persistRecord env (coinbaseRecord st mb) mb)
    sd mb.header.stateDeltaHash mb.blockHash).1 = true
  case pos =>
    rw [if_pos c14]
    refine Or.inr ⟨by simpa using c2, rfl, ?_⟩
    rw [acceptMicroBlock_microBlocks, psd_microBlocks, psd_currentEpochNum,
      spr_microBlocks, spr_currentEpochNum, cbr_microBlocks, cbr_currentEpochNum]
  rw [if_neg c14]
  refine Or.inl ?_
  rw [show ((false, (ProcessStateDelta env (persistRecord env (coinbaseRecord st mb) mb)
      sd mb.header.stateDeltaHash mb.blockHash).2) :
      Bool × DSState).2.microBlocks =
    (ProcessStateDelta env (persistRecord env (coinbaseRecord st mb) mb)
      sd mb.header.stateDeltaHash mb.blockHash).2.microBlocks from rfl]
  rw [psd_microBlocks, spr_microBlocks, cbr_microBlocks]

/-!
Claim theorems.
-/

/-- C4: VerifyMicroBlockCoSignature fails when shardId exceeds |shards|;
verifies against the DS committee at shardId = |shards| and against
shards[shardId] below it; fails when the selected committee's size differs
from |B2|; fails unless the number of set bits of B2 is exactly
quorum(|B2|) = ceil(2|B2|/3) + 1; and for |B2| = 10 a bitmap with 7 set
bits (one short of the required 8) is rejected. -/
theorem c4_cosignature_verifier (env : Env) (st : DSState) (mb : MicroBlock)
    (shardId : Nat) :
    (st.shards.length < shardId →
      VerifyMicroBlockCoSignature env st mb shardId = false)
    ∧ (shardId = st.shards.length →
      VerifyMicroBlockCoSignature env st mb shardId =
        (if st.dsCommittee.length ≠ mb.b2.length then false
         else verifyAggregate env mb (extractSigners st.dsCommittee mb.b2)))
    ∧ (shardId < st.shards.length →
      VerifyMicroBlockCoSignature env st mb shardId =
        (if (st.shards.getD shardId []).length ≠ mb.b2.length then false
         else verifyAggregate env mb
           (extractSigners (st.shards.getD shardId []) mb.b2)))
    ∧ (shardId = st.shards.length → st.dsCommittee.length ≠ mb.b2.length →
      VerifyMicroBlockCoSignature env st mb shardId = false)
    ∧ (shardId < st.shards.length →
        (st.shards.getD shardId []).length ≠ mb.b2.length →
      VerifyMicroBlockCoSignature env st mb shardId = false)
    ∧ (mb.b2.count true ≠ NumForConsensus mb.b2.length →
      VerifyMicroBlockCoSignature env st mb shardId = false)
    ∧ (mb.b2.length = 10 → mb.b2.count true = 7 →
      VerifyMicroBlockCoSignature env st mb shardId = false) := by
  refine ⟨?_, ?_, ?_, ?_, ?_, ?_, ?_⟩
  · intro h
    have h1 : ¬ shardId = st.shards.length := by omega
    have h2 : ¬ shardId < st.shards.length := by omega
    unfold VerifyMicroBlockCoSignature
    rw [if_neg h1, if_neg h2]
  · intro h
    exact verify_ds_branch env st mb shardId h
  · intro h
    exact verify_shard_branch env st mb shardId (by omega) h
  · intro h h2
    rw [verify_ds_branch env st mb shardId h, if_pos h2]
  · intro h h2
    rw [verify_shard_branch env st mb shardId (by omega) h, if_pos h2]
  · intro h
    exact verify_quorum_fail env st mb shardId h
  · intro h10 h7
    refine verify_quorum_fail env st mb shardId ?_
    rw [h10, h7]
    decide

/-- C4 witness: on the quorum-boundary scenario (ten-member shard, B2 with
exactly 7 of 10 bits set, everything else permissive) the verifier
rejects. -/
theorem c4_witness :
    VerifyMicroBlockCoSignature envA stQuorum mbQuorum7 0 = false :=
  (c4_cosignature_verifier envA stQuorum mbQuorum7 0).2.2.2.2.2.2
    (by decide) (by decide)

/-- C5: ProcessStateDelta accepts as a no-op when the expected hash is the
zero hash (for every delta, including a non-empty one); rejects a non-zero
expected hash with an empty delta; rejects when sha256(delta) differs from
a non-zero expected hash; and otherwise applies the delta to the account
store's temporary overlay and records it under
microBlockStateDeltas[currentEpoch][blockHash]. -/
theorem c5_state_delta_policy (env : Env) (st : DSState) (delta : List Nat)
    (expectedHash blockHash : Nat) (hlk : env.lookupNodeMode = false) :
    (expectedHash = zeroStateHash →
      ProcessStateDelta env st delta expectedHash blockHash = (true, st))
    ∧ (expectedHash ≠ zeroStateHash → delta = [] →
      (ProcessStateDelta env st delta expectedHash blockHash).1 = false)
    ∧ (expectedHash ≠ zeroStateHash → delta ≠ [] →
        env.sha256 delta ≠ expectedHash →
      (ProcessStateDelta env st delta expectedHash blockHash).1 = false)
    ∧ (expectedHash ≠ zeroStateHash → delta ≠ [] →
        env.sha256 delta = expectedHash →
        env.deserializeDeltaTempOk delta = true →
        env.serializeDeltaOk = true →
        (assocGet st.microBlockStateDeltas st.currentEpochNum).any
          (fun p => p.1 == blockHash) = false →
      (ProcessStateDelta env st delta expectedHash blockHash).1 = true
      ∧ (blockHash, delta) ∈ assocGet
          (ProcessStateDelta env st delta expectedHash blockHash).2.microBlockStateDeltas
          st.currentEpochNum
      ∧ delta ∈
          (ProcessStateDelta env st delta expectedHash blockHash).2.accountTempDeltas) := by
  refine ⟨?_, ?_, ?_, ?_⟩
  · intro h
    simp [ProcessStateDelta, hlk, h]
  · intro h hd
    subst hd
    simp [ProcessStateDelta, hlk, h]
  · intro h hd hsha
    simp [ProcessStateDelta, hlk, h, hd, hsha]
  · intro h hd hsha hdeser hser hfresh
    have hde : delta.isEmpty = false := by
      cases delta with
      | nil => exact absurd rfl hd
      | cons a l => rfl
    have hred : ProcessStateDelta env st delta expectedHash blockHash =
        (true,
         { st with
           accountTempDeltas := st.accountTempDeltas ++ [delta],
           stateDeltaFromShards :=
             env.getSerializedDelta (st.accountTempDeltas ++ [delta]),
           microBlockStateDeltas :=
             assocUpd st.microBlockStateDeltas st.currentEpochNum
               (deltaEmplace
                 (assocGet st.microBlockStateDeltas st.currentEpochNum)
                 blockHash delta) }) := by
      simp [ProcessStateDelta, hlk, h, hde, hsha, hdeser, hser]
    refine ⟨by rw [hred], ?_, by rw [hred]; simp⟩
    rw [hred]
    simp only [assocGet_upd_self, deltaEmplace, hfresh]
    simp

/-- C5 witness: under envA (sha256 constantly 5) a non-empty delta [1] with
expected hash 5 is accepted, applied, and recorded under block hash 9 for
epoch 10. -/
theorem c5_witness :
    (ProcessStateDelta envA stShard [1] 5 9).1 = true
    ∧ (9, [1]) ∈ assocGet
        (ProcessStateDelta envA stShard [1] 5 9).2.microBlockStateDeltas 10
    ∧ [1] ∈ (ProcessStateDelta envA stShard [1] 5 9).2.accountTempDeltas :=
  (c5_state_delta_policy envA stShard [1] 5 9 (by decide)).2.2.2
    (by decide) (by decide) (by decide) (by decide) (by decide) (by decide)

/-- C7: the shard-submission dispatcher rejects empty inputs; buffers
(microblocks[0], deltas[0]) and returns true for a future epoch, and for
the current epoch when the PROCESS_MICROBLOCKSUBMISSION state is not
active; runs the validation core directly for the current epoch when that
state is active; and returns false with no state change for a stale
epoch. -/
theorem c7_dispatch_table (env : Env) (st : DSState) (epochNumber : Nat)
    (mb : MicroBlock) (mbs : List MicroBlock) (sd : List Nat)
    (sds : List (List Nat)) :
    (∀ ds : List (List Nat),
      ProcessMicroblockSubmissionFromShard env st epochNumber [] ds = (false, st))
    ∧ (∀ ms : List MicroBlock,
      ProcessMicroblockSubmissionFromShard env st epochNumber ms [] = (false, st))
    ∧ (st.currentEpochNum < epochNumber →
      ProcessMicroblockSubmissionFromShard env st epochNumber (mb :: mbs)
          (sd :: sds) =
        (true, { st with mbSubmissionBuffer :=
                  bufferAdd epochNumber (mb, sd) st.mbSubmissionBuffer }))
    ∧ (epochNumber = st.currentEpochNum →
        env.stateIsProcessMBSubmission = true →
      ProcessMicroblockSubmissionFromShard env st epochNumber (mb :: mbs)
          (sd :: sds) =
        ProcessMicroblockSubmissionFromShardCore env st mb sd)
    ∧ (epochNumber = st.currentEpochNum →
        env.stateIsProcessMBSubmission = false →
      ProcessMicroblockSubmissionFromShard env st epochNumber (mb :: mbs)
          (sd :: sds) =
        (true, { st with mbSubmissionBuffer :=
                  bufferAdd epochNumber (mb, sd) st.mbSubmissionBuffer }))
    ∧ (epochNumber < st.currentEpochNum →
      ProcessMicroblockSubmissionFromShard env st epochNumber (mb :: mbs)
          (sd :: sds) =
        (false, st)) := by
  refine ⟨?_, ?_, ?_, ?_, ?_, ?_⟩
  · intro ds
    simp [ProcessMicroblockSubmissionFromShard]
  · intro ms
    cases ms <;> simp [ProcessMicroblockSubmissionFromShard]
  · intro h
    simp [ProcessMicroblockSubmissionFromShard, h]
  · intro h hstate
    subst h
    simp [ProcessMicroblockSubmissionFromShard, hstate]
  · intro h hstate
    subst h
    simp [ProcessMicroblockSubmissionFromShard, hstate]
  · intro h
    have h1 : ¬ st.currentEpochNum < epochNumber := by omega
    have h2 : ¬ st.currentEpochNum = epochNumber := by omega
    simp [ProcessMicroblockSubmissionFromShard, h1, h2]

/-- C7 witness: a submission for epoch 7 arriving at epoch 5 is buffered
under key 7 and the dispatcher returns true. -/
theorem c7_witness :
    ProcessMicroblockSubmissionFromShard envA stRepair 7 [mbBad] [[]] =
      (true, { stRepair with mbSubmissionBuffer := bufferAdd 7 (mbBad, []) stRepair.mbSubmissionBuffer }) :=
  (c7_dispatch_table envA stRepair 7 mbBad [] [] []).2.2.1 (by decide)

/-- Behaviour of the drain iteration on a key-sorted buffer: buckets below
the current epoch are dropped, the current epoch's bucket is folded through
the core and dropped, and later buckets survive. -/
theorem commitMBLoop_spec (env : Env) (st : DSState)
    (l : List (Nat × List (MicroBlock × List Nat)))
    (hs : l.Pairwise (fun a b => a.1 < b.1)) :
    commitMBLoop env st l =
      (coreFold env (bufferBucket l st.currentEpochNum) st,
       l.filter (fun p => st.currentEpochNum < p.1)) := by
  induction l with
  | nil => simp [commitMBLoop, bufferBucket, coreFold]
  | cons p rest ih =>
    have hall := (List.pairwise_cons.mp hs).1
    have hrest := (List.pairwise_cons.mp hs).2
    by_cases h1 : p.1 < st.currentEpochNum
    · have hne : (p.1 == st.currentEpochNum) = false := by
        simp only [beq_eq_false_iff_ne, ne_eq]
        omega
      have hflt : ¬ st.currentEpochNum < p.1 := by omega
      simp [commitMBLoop, h1, ih hrest, bufferBucket, List.find?_cons, hne, hflt]
    · by_cases h2 : p.1 = st.currentEpochNum
      · have hfind : (p.1 == st.currentEpochNum) = true := by simp [h2]
        have hflt : ¬ st.currentEpochNum < p.1 := by omega
        have hkeep : rest.filter (fun q => st.currentEpochNum < q.1) = rest := by
          apply List.filter_eq_self.mpr
          intro q hq
          have hq2 := hall q hq
          simp only [decide_eq_true_eq]
          omega
        simp [commitMBLoop, h1, h2, bufferBucket, List.find?_cons, hfind, hflt,
          hkeep, coreFold]
      · have h3 : st.currentEpochNum < p.1 := by omega
        have hne : (p.1 == st.currentEpochNum) = false := by
          simp only [beq_eq_false_iff_ne, ne_eq]
          omega
        simp [commitMBLoop, h1, h2, ih hrest, bufferBucket, List.find?_cons,
          hne, h3, coreFold]

/-- C8: on a key-sorted submission buffer, CommitMBSubmissionMsgBuffer
erases every bucket below the current epoch, processes each buffered
(microblock, delta) of the current epoch's bucket through the
shard-submission core and erases that bucket, and leaves every bucket
above the current epoch in place. -/
theorem c8_commit_buffer (env : Env) (st : DSState)
    (hs : st.mbSubmissionBuffer.Pairwise (fun a b => a.1 < b.1)) :
    CommitMBSubmissionMsgBuffer env st =
      { coreFold env (bufferBucket st.mbSubmissionBuffer st.currentEpochNum) st with
        mbSubmissionBuffer :=
          st.mbSubmissionBuffer.filter (fun p => st.currentEpochNum < p.1) } := by
  unfold CommitMBSubmissionMsgBuffer
  rw [commitMBLoop_spec env st _ hs]

/-- C8 witness: with buckets at epochs 3, 5 (current, holding one
submission that the core rejects) and 7, the drain leaves exactly the
future bucket 7 and the state otherwise unchanged. -/
theorem c8_witness :
    CommitMBSubmissionMsgBuffer envA stBuffered =
      { stBuffered with mbSubmissionBuffer := [(7, [])] } := by
  rw [c8_commit_buffer envA stBuffered (by decide)]
  decide

/-- C6: in the missing-microblock repair loop, a failed block-latest
freshness check or a failed persistence write aborts the whole batch with
false, while failures of the authority check, the co-signature check, the
missing-list membership check, the already-present check, coinbase
recording, or state-delta application only skip that item and the loop
continues; and the co-signature check is skipped entirely for an item whose
shard id equals the node's own shard id (the item is still accepted when
everything else passes even though the co-signature verifier rejects
it). -/
theorem c6_repair_error_policy (env : Env) (e : Nat) (st : DSState)
    (mb : MicroBlock) (sd : List Nat) (rest : List (MicroBlock × List Nat)) :
    (env.blockIsLatest (mb.header.dsBlockNum + 1) mb.header.epochNum = false →
      ProcessMissingLoop env e st ((mb, sd) :: rest) = (false, st))
    ∧ (env.blockIsLatest (mb.header.dsBlockNum + 1) mb.header.epochNum = true →
        missingAuthorityOk st mb = false →
      ProcessMissingLoop env e st ((mb, sd) :: rest) =
        ProcessMissingLoop env e st rest)
    ∧ (env.blockIsLatest (mb.header.dsBlockNum + 1) mb.header.epochNum = true →
        missingAuthorityOk st mb = true →
        mb.header.shardId ≠ st.myShardId →
        VerifyMicroBlockCoSignature env st mb mb.header.shardId = false →
      ProcessMissingLoop env e st ((mb, sd) :: rest) =
        ProcessMissingLoop env e st rest)
    ∧ (env.blockIsLatest (mb.header.dsBlockNum + 1) mb.header.epochNum = true →
        missingAuthorityOk st mb = true →
        (assocGet st.missingMicroBlocks e).contains mb.blockHash = false →
      ProcessMissingLoop env e st ((mb, sd) :: rest) =
        ProcessMissingLoop env e st rest)
    ∧ (env.blockIsLatest (mb.header.dsBlockNum + 1) mb.header.epochNum = true →
        missingAuthorityOk st mb = true →
        (assocGet st.microBlocks e).any
          (fun my => my.blockHash == mb.blockHash) = true →
      ProcessMissingLoop env e st ((mb, sd) :: rest) =
        ProcessMissingLoop env e st rest)
    ∧ (env.blockIsLatest (mb.header.dsBlockNum + 1) mb.header.epochNum = true →
        missingAuthorityOk st mb = true →
        (mb.header.shardId = st.myShardId ∨
          VerifyMicroBlockCoSignature env st mb mb.header.shardId = true) →
        (assocGet st.missingMicroBlocks e).contains mb.blockHash = true →
        (assocGet st.microBlocks e).any
          (fun my => my.blockHash == mb.blockHash) = false →
        mb.header.shardId ≠ st.shards.length →
        env.saveCoinbaseOk mb.b1 mb.b2 mb.header.shardId st.currentEpochNum = false →
      ProcessMissingLoop env e st ((mb, sd) :: rest) =
        ProcessMissingLoop env e st rest)
    ∧ (env.blockIsLatest (mb.header.dsBlockNum + 1) mb.header.epochNum = true →
        missingAuthorityOk st mb = true →
        (mb.header.shardId = st.myShardId ∨
          VerifyMicroBlockCoSignature env st mb mb.header.shardId = true) →
        (assocGet st.missingMicroBlocks e).contains mb.blockHash = true →
        (assocGet st.microBlocks e).any
          (fun my => my.blockHash == mb.blockHash) = false →
        (mb.header.shardId = st.shards.length ∨
          env.saveCoinbaseOk mb.b1 mb.b2 mb.header.shardId st.currentEpochNum = true) →
        env.isVacuousEpoch e = false →
        (ProcessStateDelta env (coinbaseRecord st mb) sd mb.header.stateDeltaHash
          mb.blockHash).1 = false →
      ProcessMissingLoop env e st ((mb, sd) :: rest) =
        ProcessMissingLoop env e
          (ProcessStateDelta env (coinbaseRecord st mb) sd mb.header.stateDeltaHash
            mb.blockHash).2 rest)
    ∧ (env.blockIsLatest (mb.header.dsBlockNum + 1) mb.header.epochNum = true →
        missingAuthorityOk st mb = true →
        (mb.header.shardId = st.myShardId ∨
          VerifyMicroBlockCoSignature env st mb mb.header.shardId = true) →
        (assocGet st.missingMicroBlocks e).contains mb.blockHash = true →
        (assocGet st.microBlocks e).any
          (fun my => my.blockHash == mb.blockHash) = false →
        (mb.header.shardId = st.shards.length ∨
          env.saveCoinbaseOk mb.b1 mb.b2 mb.header.shardId st.currentEpochNum = true) →
        env.isVacuousEpoch e = true →
        env.putMicroBlockOk mb.blockHash mb.header.epochNum mb.header.shardId
          (env.serializeMicroBlock mb) = false →
      ProcessMissingLoop env e st ((mb, sd) :: rest) =
        (false, coinbaseRecord st mb))
    ∧ (env.blockIsLatest (mb.header.dsBlockNum + 1) mb.header.epochNum = true →
        missingAuthorityOk st mb = true →
        mb.header.shardId = st.myShardId →
        VerifyMicroBlockCoSignature env st mb mb.header.shardId = false →
        (assocGet st.missingMicroBlocks e).contains mb.blockHash = true →
        (assocGet st.microBlocks e).any
          (fun my => my.blockHash == mb.blockHash) = false →
        (mb.header.shardId = st.shards.length ∨
          env.saveCoinbaseOk mb.b1 mb.b2 mb.header.shardId st.currentEpochNum = true) →
        env.isVacuousEpoch e = true →
        ∀ st3 : DSState,
          missingPersistInsert env e (coinbaseRecord st mb) mb = some st3 →
      ProcessMissingLoop env e st ((mb, sd) :: rest) =
        ProcessMissingLoop env e st3 rest) := by
  refine ⟨?_, ?_, ?_, ?_, ?_, ?_, ?_, ?_, ?_⟩
  · intro hfresh
    simp only [ProcessMissingLoop]
    rw [if_pos (by simp [hfresh])]
  · intro hfresh hauth
    simp only [ProcessMissingLoop]
    rw [if_neg (by simp [hfresh]), if_pos (by simp [hauth])]
  · intro hfresh hauth hns hv
    simp only [ProcessMissingLoop]
    rw [if_neg (by simp [hfresh]), if_neg (by simp [hauth]),
      if_pos (⟨hns, by simp [hv]⟩ : _ ∧ _)]
  · intro hfresh hauth hmiss
    simp only [ProcessMissingLoop]
    rw [if_neg (by simp [hfresh]), if_neg (by simp [hauth])]
    by_cases hcos : mb.header.shardId ≠ st.myShardId ∧
        ¬ VerifyMicroBlockCoSignature env st mb mb.header.shardId = true
    · rw [if_pos hcos]
    · rw [if_neg hcos, if_pos (by simpa using hmiss)]
  · intro hfresh hauth hpresent
    simp only [ProcessMissingLoop]
    rw [if_neg (by simp [hfresh]), if_neg (by simp [hauth])]
    by_cases hcos : mb.header.shardId ≠ st.myShardId ∧
        ¬ VerifyMicroBlockCoSignature env st mb mb.header.shardId = true
    · rw [if_pos hcos]
    · rw [if_neg hcos]
      by_cases hmiss :
          (assocGet st.missingMicroBlocks e).contains mb.blockHash = true
      · rw [if_neg (by simpa using hmiss), if_pos (by simp [hpresent])]
      · rw [if_pos (by simpa using hmiss)]
  · intro hfresh hauth hcs hmiss hpresent hnotds hsave
    simp only [ProcessMissingLoop]
    rw [if_neg (by simp [hfresh]), if_neg (by simp [hauth]),
      if_neg (by rcases hcs with h | h <;> simp [h]),
      if_neg (by simpa using hmiss), if_neg (by simp [hpresent]),
      if_pos (⟨hnotds, by simp [hsave]⟩ : _ ∧ _)]
  · intro hfresh hauth hcs hmiss hpresent hcb hvac hdelta
    simp only [ProcessMissingLoop]
    rw [if_neg (by simp [hfresh]), if_neg (by simp [hauth]),
      if_neg (by rcases hcs with h | h <;> simp [h]),
      if_neg (by simpa using hmiss), if_neg (by simp [hpresent]),
      if_neg (by rcases hcb with h | h <;> simp [h]),
      if_pos (by simp [hvac]), if_pos (by simp [hdelta])]
  · intro hfresh hauth hcs hmiss hpresent hcb hvac hput
    simp only [ProcessMissingLoop]
    rw [if_neg (by simp [hfresh]), if_neg (by simp [hauth]),
      if_neg (by rcases hcs with h | h <;> simp [h]),
      if_neg (by simpa using hmiss), if_neg (by simp [hpresent]),
      if_neg (by rcases hcb with h | h <;> simp [h]),
      if_neg (by simp [hvac]),
      show missingPersistInsert env e (coinbaseRecord st mb) mb = none
        from by simp [missingPersistInsert, hput]]
  · intro hfresh hauth hmy hv hmiss hpresent hcb hvac st3 hins
    simp only [ProcessMissingLoop]
    rw [if_neg (by simp [hfresh]), if_neg (by simp [hauth]),
      if_neg (by simp [hmy]),
      if_neg (by simpa using hmiss), if_neg (by simp [hpresent]),
      if_neg (by rcases hcb with h | h <;> simp [h]),
      if_neg (by simp [hvac]), hins]

/-- C6 witness: a repair item that fails the block-latest freshness check
aborts the batch immediately, returning false with the state unchanged. -/
theorem c6_witness :
    ProcessMissingLoop envStale 5 stRepair [(mbBad, [])] = (false, stRepair) :=
  (c6_repair_error_policy envStale 5 stRepair mbBad [] []).1 (by decide)

/-- C9: when the repair path accepts a non-DS item of a batch whose epoch
number differs from the node's current epoch (which the operation
tolerates), the coinbase entry is recorded under the node's current epoch
while the microblock itself is inserted under the batch's epoch number, so
the two records are keyed to different epochs. -/
theorem c9_repair_coinbase_epoch (env : Env) (st : DSState) (e : Nat)
    (mb : MicroBlock) (sd : List Nat)
    (hep : e ≠ st.currentEpochNum)
    (hfresh : env.blockIsLatest (mb.header.dsBlockNum + 1) mb.header.epochNum = true)
    (hauth : missingAuthorityOk st mb = true)
    (hcs : mb.header.shardId = st.myShardId ∨
      VerifyMicroBlockCoSignature env st mb mb.header.shardId = true)
    (hmiss : (assocGet st.missingMicroBlocks e).contains mb.blockHash = true)
    (hpresent : (assocGet st.microBlocks e).any
      (fun my => my.blockHash == mb.blockHash) = false)
    (hnotds : mb.header.shardId ≠ st.shards.length)
    (hsave : env.saveCoinbaseOk mb.b1 mb.b2 mb.header.shardId st.currentEpochNum = true)
    (hvac : env.isVacuousEpoch e = true)
    (hput : env.putMicroBlockOk mb.blockHash mb.header.epochNum mb.header.shardId
      (env.serializeMicroBlock mb) = true) :
    (ProcessMissingMicroblockSubmission env st e [mb] [sd]).2.coinbase =
      (mb.b1, mb.b2, mb.header.shardId, st.currentEpochNum) :: st.coinbase
    ∧ mb ∈ assocGet
        (ProcessMissingMicroblockSubmission env st e [mb] [sd]).2.microBlocks e
    ∧ st.currentEpochNum ≠ e := by
  have hins : missingPersistInsert env e (coinbaseRecord st mb) mb =
      some { coinbaseRecord st mb with
        storedMicroBlocks :=
          (mb.blockHash, mb.header.epochNum, mb.header.shardId,
            env.serializeMicroBlock mb) :: (coinbaseRecord st mb).storedMicroBlocks,
        microBlocks :=
          assocUpd (coinbaseRecord st mb).microBlocks e
            (setInsert (assocGet (coinbaseRecord st mb).microBlocks e) mb) } := by
    simp [missingPersistInsert, hput]
  have hloop : ProcessMissingLoop env e st [(mb, sd)] =
      (true, { coinbaseRecord st mb with
        storedMicroBlocks :=
          (mb.blockHash, mb.header.epochNum, mb.header.shardId,
            env.serializeMicroBlock mb) :: (coinbaseRecord st mb).storedMicroBlocks,
        microBlocks :=
          assocUpd (coinbaseRecord st mb).microBlocks e
            (setInsert (assocGet (coinbaseRecord st mb).microBlocks e) mb) }) := by
    simp only [ProcessMissingLoop]
    rw [if_neg (by simp [hfresh]), if_neg (by simp [hauth]),
      if_neg (by rcases hcs with h | h <;> simp [h]),
      if_neg (by simpa using hmiss), if_neg (by simp [hpresent]),
      if_neg (by simp [hsave]), if_neg (by simp [hvac]), hins]
  have hres : (ProcessMissingMicroblockSubmission env st e [mb] [sd]).2 =
      { coinbaseRecord st mb with
        storedMicroBlocks :=
          (mb.blockHash, mb.header.epochNum, mb.header.shardId,
            env.serializeMicroBlock mb) :: (coinbaseRecord st mb).storedMicroBlocks,
        microBlocks :=
          assocUpd (coinbaseRecord st mb).microBlocks e
            (setInsert (assocGet (coinbaseRecord st mb).microBlocks e) mb) } := by
    simp only [ProcessMissingMicroblockSubmission, List.length_cons,
      List.length_nil, List.zip_cons_cons, List.zip_nil_right, hloop]
    by_cases hchk : env.checkMicroBlocksOk = true <;> simp [hchk]
  refine ⟨?_, ?_, fun h => hep h.symm⟩
  · rw [hres]
    show (coinbaseRecord st mb).coinbase = _
    exact cbr_coinbase_nonds st mb hnotds
  · rw [hres]
    show mb ∈ assocGet
      (assocUpd (coinbaseRecord st mb).microBlocks e
        (setInsert (assocGet (coinbaseRecord st mb).microBlocks e) mb)) e
    rw [assocGet_upd_self]
    exact mem_setInsert_self _ mb

/-- C9 witness: a one-item repair batch for epoch 7 processed at current
epoch 5 records its coinbase entry under epoch 5 while the microblock is
filed under epoch 7. -/
theorem c9_witness :
    (ProcessMissingMicroblockSubmission envA stMissingLate 7 [mbGood] [[]]).2.coinbase =
      (mbGood.b1, mbGood.b2, mbGood.header.shardId,
        stMissingLate.currentEpochNum) :: stMissingLate.coinbase
    ∧ mbGood ∈ assocGet
        (ProcessMissingMicroblockSubmission envA stMissingLate 7 [mbGood] [[]]).2.microBlocks 7
    ∧ stMissingLate.currentEpochNum ≠ 7 :=
  c9_repair_coinbase_epoch envA stMissingLate 7 mbGood [] (by decide)
    (by decide) (by decide) (Or.inl (by decide)) (by decide) (by decide)
    (by decide) (by decide) (by decide) (by decide)

/-- C10: in the shard submission path, every rejection leaves the accepted
microblock table unchanged; but rejection is not atomic with respect to
external state: when every check up to and including persistence succeeds
and the state-delta step then fails, the core returns false with the
microblock already written to block storage and its coinbase entry
recorded, and neither effect is rolled back. -/
theorem c10_rejection_effects (env : Env) (st : DSState) (mb : MicroBlock)
    (sd : List Nat) :
    ((ProcessMicroblockSubmissionFromShardCore env st mb sd).1 = false →
      (ProcessMicroblockSubmissionFromShardCore env st mb sd).2.microBlocks =
        st.microBlocks)
    ∧ (env.lookupNodeMode = false →
       hasShardId (assocGet st.microBlocks st.currentEpochNum) mb.header.shardId = false →
       env.myHash mb.header = mb.blockHash →
       mb.header.version = env.MICROBLOCK_VERSION →
       env.blockIsLatest (mb.header.dsBlockNum + 1) mb.header.epochNum = true →
       env.verifyTimestamp mb.timestamp
         (env.CONSENSUS_OBJECT_TIMEOUT + env.MICROBLOCK_TIMEOUT + extraTime env st) = true →
       pkLookup st.publicKeyToShardId mb.header.minerPubKey = some mb.header.shardId →
       env.getShardHash (st.shards.getD mb.header.shardId []) =
         some mb.header.committeeHash →
       VerifyMicroBlockCoSignature env st mb mb.header.shardId = true →
       st.stopRecvNewMBSubmission = false →
       mb.header.shardId ≠ st.shards.length →
       env.saveCoinbaseOk mb.b1 mb.b2 mb.header.shardId st.currentEpochNum = true →
       env.putMicroBlockOk mb.blockHash mb.header.epochNum mb.header.shardId
         (env.serializeMicroBlock mb) = true →
       env.isVacuousEpoch st.currentEpochNum = false →
       (ProcessStateDelta env st sd mb.header.stateDeltaHash mb.blockHash).1 = false →
       (ProcessMicroblockSubmissionFromShardCore env st mb sd).1 = false
       ∧ (mb.blockHash, mb.header.epochNum, mb.header.shardId,
           env.serializeMicroBlock mb) ∈
           (ProcessMicroblockSubmissionFromShardCore env st mb sd).2.storedMicroBlocks
       ∧ (mb.b1, mb.b2, mb.header.shardId, st.currentEpochNum) ∈
           (ProcessMicroblockSubmissionFromShardCore env st mb sd).2.coinbase) := by
  constructor
  · intro hfalse
    rcases core_cases env st mb sd with hcase | ⟨_, htrue, _⟩
    · exact hcase
    · rw [hfalse] at htrue
      cases htrue
  · intro hlk hdup hhash hver hfresh hts hpk hsh hcosig hstop hnotds hsave hput
      hvac hdelta
    have hd3 : (ProcessStateDelta env (persistRecord env (coinbaseRecord st mb) mb)
        sd mb.header.stateDeltaHash mb.blockHash).1 = false := by
      rw [psd_fst_congr env (persistRecord env (coinbaseRecord st mb) mb) st]
      exact hdelta
    have hcore : ProcessMicroblockSubmissionFromShardCore env st mb sd =
        (false, (ProcessStateDelta env (persistRecord env (coinbaseRecord st mb) mb)
          sd mb.header.stateDeltaHash mb.blockHash).2) := by
      simp only [ProcessMicroblockSubmissionFromShardCore]
      rw [if_neg (by simp [hlk]), if_neg (by simp [hdup]),
        if_neg (not_not_intro hhash), if_neg (not_not_intro hver),
        if_neg (by simp [hfresh]), if_neg (by simp [hts]),
        if_neg (not_not_intro hpk), if_neg (not_not_intro hsh),
        if_neg (by simp [hcosig]), if_neg (by simp [hstop]),
        if_neg (by simp [hsave]), if_neg (by simp [hput]),
        if_pos (by simp [hvac]), if_neg (by simp [hd3])]
    refine ⟨by rw [hcore], ?_, ?_⟩
    · rw [hcore]
      show _ ∈ (ProcessStateDelta env (persistRecord env (coinbaseRecord st mb) mb)
        sd mb.header.stateDeltaHash mb.blockHash).2.storedMicroBlocks
      rw [psd_storedMicroBlocks, spr_storedMicroBlocks]
      exact List.mem_cons_self _ _
    · rw [hcore]
      show _ ∈ (ProcessStateDelta env (persistRecord env (coinbaseRecord st mb) mb)
        sd mb.header.stateDeltaHash mb.blockHash).2.coinbase
      rw [psd_coinbase, spr_coinbase, cbr_coinbase_nonds st mb hnotds]
      exact List.mem_cons_self _ _

/-- C10 witness: a fully valid submission whose declared state-delta hash
(5) mismatches the delta's actual hash (99 under envDeltaFail) is rejected
after the block-storage write and the coinbase entry have been made. -/
theorem c10_witness :
    (ProcessMicroblockSubmissionFromShardCore envDeltaFail stShard mbGoodDelta [1]).1 = false
    ∧ (mbGoodDelta.blockHash, mbGoodDelta.header.epochNum,
        mbGoodDelta.header.shardId, envDeltaFail.serializeMicroBlock mbGoodDelta) ∈
        (ProcessMicroblockSubmissionFromShardCore envDeltaFail stShard mbGoodDelta [1]).2.storedMicroBlocks
    ∧ (mbGoodDelta.b1, mbGoodDelta.b2, mbGoodDelta.header.shardId,
        stShard.currentEpochNum) ∈
        (ProcessMicroblockSubmissionFromShardCore envDeltaFail stShard mbGoodDelta [1]).2.coinbase :=
  (c10_rejection_effects envDeltaFail stShard mbGoodDelta [1]).2
    (by decide) (by decide) (by decide) (by decide) (by decide) (by decide)
    (by decide) (by decide) (by decide) (by decide) (by decide) (by decide)
    (by decide) (by decide) (by decide)

/-- C1 counterexample: the missing-microblock repair path accepts a
microblock whose version differs from MICROBLOCK_VERSION and whose
blockHash differs from its header self-hash — neither check is performed
on that path, so the claimed invariant over both acceptance paths is
false. -/
theorem c1_counterexample :
    mbBad ∈ assocGet
      (ProcessMissingMicroblockSubmission envA stRepair 5 [mbBad] [[]]).2.microBlocks 5
    ∧ mbBad.header.version ≠ envA.MICROBLOCK_VERSION
    ∧ envA.myHash mbBad.header ≠ mbBad.blockHash := by
  decide

/-- C1 amended: every microblock accepted through the shard submission
path satisfies the self-hash binding and the version requirement (the
repair path performs neither check). -/
theorem c1_shard_accept_invariant (env : Env) (st : DSState)
    (mb : MicroBlock) (sd : List Nat) (hlk : env.lookupNodeMode = false)
    (h : (ProcessMicroblockSubmissionFromShardCore env st mb sd).1 = true) :
    env.myHash mb.header = mb.blockHash
    ∧ mb.header.version = env.MICROBLOCK_VERSION := by
  by_cases h2 : env.myHash mb.header = mb.blockHash
  · by_cases h3 : mb.header.version = env.MICROBLOCK_VERSION
    · exact ⟨h2, h3⟩
    · exfalso
      have hf : (ProcessMicroblockSubmissionFromShardCore env st mb sd).1 = false := by
        simp only [ProcessMicroblockSubmissionFromShardCore]
        rw [if_neg (by simp [hlk])]
        by_cases hdup : hasShardId (assocGet st.microBlocks st.currentEpochNum)
          mb.header.shardId = true
        · rw [if_pos hdup]
        · rw [if_neg hdup, if_neg (not_not_intro h2), if_pos h3]
      rw [h] at hf
      exact Bool.noConfusion hf
  · exfalso
    have hf : (ProcessMicroblockSubmissionFromShardCore env st mb sd).1 = false := by
      simp only [ProcessMicroblockSubmissionFromShardCore]
      rw [if_neg (by simp [hlk])]
      by_cases hdup : hasShardId (assocGet st.microBlocks st.currentEpochNum)
        mb.header.shardId = true
      · rw [if_pos hdup]
      · rw [if_neg hdup, if_pos h2]
    rw [h] at hf
    exact Bool.noConfusion hf

/-- C1 witness: the fully valid shard submission mbGood is accepted by the
core, and it indeed satisfies both header invariants. -/
theorem c1_witness :
    envA.myHash mbGood.header = mbGood.blockHash
    ∧ mbGood.header.version = envA.MICROBLOCK_VERSION :=
  c1_shard_accept_invariant envA stShard mbGood [] (by decide) (by decide)

/-- C2 counterexample: the repair path deduplicates only by block hash, so
two microblocks carrying the same shard id but different block hashes are
both accepted into the same epoch bucket, violating at-most-one-per-
(epoch, shardId). -/
theorem c2_counterexample :
    mbBad ∈ assocGet
      (ProcessMissingMicroblockSubmission envA stRepair 5 [mbBad, mbBad8]
        [[], []]).2.microBlocks 5
    ∧ mbBad8 ∈ assocGet
      (ProcessMissingMicroblockSubmission envA stRepair 5 [mbBad, mbBad8]
        [[], []]).2.microBlocks 5
    ∧ mbBad ≠ mbBad8
    ∧ mbBad.header.shardId = mbBad8.header.shardId := by
  decide

/-- C2 amended: the shard submission path preserves uniqueness of shard
ids within the current epoch's accepted bucket (its duplicate-shard gate
rejects any submission whose shard id is already present); the repair path
checks only block hashes and gives no such guarantee. -/
theorem c2_shard_unique_preserved (env : Env) (st : DSState)
    (mb : MicroBlock) (sd : List Nat)
    (h : (assocGet st.microBlocks st.currentEpochNum).Pairwise
      (fun a b => a.header.shardId ≠ b.header.shardId)) :
    (assocGet (ProcessMicroblockSubmissionFromShardCore env st mb sd).2.microBlocks
      st.currentEpochNum).Pairwise
      (fun a b => a.header.shardId ≠ b.header.shardId) := by
  rcases core_cases env st mb sd with hcase | ⟨hdup, _, hcase⟩
  · rw [hcase]
    exact h
  · rw [hcase, assocGet_upd_self]
    have hall : ∀ b ∈ assocGet st.microBlocks st.currentEpochNum,
        mb.header.shardId ≠ b.header.shardId := by
      intro b hb heq
      simp only [hasShardId, List.any_eq_false, beq_iff_eq] at hdup
      exact hdup b hb heq.symm
    unfold setInsert
    by_cases hmem : mb ∈ assocGet st.microBlocks st.currentEpochNum
    · rw [if_pos hmem]
      exact h
    · rw [if_neg hmem]
      exact List.Pairwise.cons hall h

/-- C2 witness: accepting mbGood into the empty epoch-10 bucket keeps the
shard ids of the bucket pairwise distinct. -/
theorem c2_witness :
    (assocGet (ProcessMicroblockSubmissionFromShardCore envA stShard mbGood []).2.microBlocks
      stShard.currentEpochNum).Pairwise
      (fun a b => a.header.shardId ≠ b.header.shardId) :=
  c2_shard_unique_preserved envA stShard mbGood [] (by simp [stShard, assocGet])

/-- C3 counterexample: with the drain gate set for the current epoch, the
repair path still inserts a new microblock into that epoch's bucket — it
never consults stopRecvNewMBSubmission. -/
theorem c3_counterexample :
    stRepairStopped.stopRecvNewMBSubmission = true
    ∧ assocGet stRepairStopped.microBlocks 5 = []
    ∧ stRepairStopped.currentEpochNum = 5
    ∧ mbBad ∈ assocGet
        (ProcessMissingMicroblockSubmission envA stRepairStopped 5 [mbBad]
          [[]]).2.microBlocks 5 := by
  decide

/-- C3 amended: once stopRecvNewMBSubmission is set, the shard submission
path rejects with no state change at all; the repair path is not guarded
by the flag and can still insert. -/
theorem c3_drain_gate_shard_path (env : Env) (st : DSState)
    (mb : MicroBlock) (sd : List Nat) (hlk : env.lookupNodeMode = false)
    (hstop : st.stopRecvNewMBSubmission = true) :
    ProcessMicroblockSubmissionFromShardCore env st mb sd = (false, st) := by
  simp only [ProcessMicroblockSubmissionFromShardCore]
  rw [if_neg (by simp [hlk])]
  by_cases c2 : hasShardId (assocGet st.microBlocks st.currentEpochNum)
    mb.header.shardId = true
  case pos => rw [if_pos c2]
  rw [if_neg c2]
  by_cases c3 : env.myHash mb.header = mb.blockHash
  case neg => rw [if_pos c3]
  rw [if_neg (not_not_intro c3)]
  by_cases c4 : mb.header.version = env.MICROBLOCK_VERSION
  case neg => rw [if_pos c4]
  rw [if_neg (not_not_intro c4)]
  by_cases c5 : env.blockIsLatest (mb.header.dsBlockNum + 1)
    mb.header.epochNum = true
  case neg => rw [if_pos c5]
  rw [if_neg (not_not_intro c5)]
  by_cases c6 : env.verifyTimestamp mb.timestamp
    (env.CONSENSUS_OBJECT_TIMEOUT + env.MICROBLOCK_TIMEOUT + extraTime env st) = true
  case neg => rw [if_pos c6]
  rw [if_neg (not_not_intro c6)]
  by_cases c7 : pkLookup st.publicKeyToShardId mb.header.minerPubKey =
    some mb.header.shardId
  case neg => rw [if_pos c7]
  rw [if_neg (not_not_intro c7)]
  by_cases c8 : env.getShardHash (st.shards.getD mb.header.shardId []) =
    some mb.header.committeeHash
  case neg => rw [if_pos c8]
  rw [if_neg (not_not_intro c8)]
  by_cases c9 : VerifyMicroBlockCoSignature env st mb mb.header.shardId = true
  case neg => rw [if_pos c9]
  rw [if_neg (not_not_intro c9), if_pos hstop]

/-- C3 witness: with the gate set at epoch 5, the shard core rejects a
submission outright, leaving the state untouched. -/
theorem c3_witness :
    ProcessMicroblockSubmissionFromShardCore envA stRepairStopped mbBad [] =
      (false, stRepairStopped) :=
  c3_drain_gate_shard_path envA stRepairStopped mbBad [] (by decide) (by decide)

end ZilliqaDS
